import Mathlib

/-!
Verification development for the CineMind retrieval and candidate-ranking
pipeline.  The definitions below are shallow embeddings of the Python source:

* `build_search_prompt` embeds `src/agent/trend_analyst.py` lines 41-60.
  In the source the input is a JSON string; `json.loads` either raises
  `JSONDecodeError` (caught, yielding the fixed fallback string) or produces
  a dict.  We model the parse boundary by taking an `Option Profile`:
  `none` stands for a malformed / non-JSON input (the `JSONDecodeError`
  branch) and `some p` for a well-formed profile object.  In the dict,
  `profile.get(field)` is falsy exactly when the key is absent or the list
  is empty, so a well-formed profile is modelled as five string lists with
  absent ≡ empty.
* `analyze_trends` embeds `src/agent/trend_analyst.py` lines 64-90.  The
  module-level FAISS vectorstore is abstracted as a search function
  parameter; exceptions raised by the external index propagate through
  `analyze_trends` (the source has no try/except there), which the
  `Except` result type records.
* `compute_weighted_rating` embeds `src/data/build_master_dataset.py`
  lines 67-69, generically over a linear ordered field (instantiated at ℚ
  for computation and at ℝ for the limit statement).
* `parse_genres` / `parse_keywords` embed `src/data/build_master_dataset.py`
  lines 13-44.  `literalEval` models Python's `ast.literal_eval` on the
  literal fragment these fields use (integers, single/double quoted strings
  without escape sequences, lists, dicts); inputs outside this fragment are
  treated as evaluation failures.
* `pyRound` models Python's `round(x, n)` (round-half-to-even) on ℚ.
-/

/-- A well-formed preference profile: the five optional list-valued fields of
the profile dict, with an absent key identified with the empty list (both are
falsy under `profile.get(field)`). -/
structure Profile where
  genres : List String
  tone : List String
  decade : List String
  people : List String
  other_preferences : List String
deriving DecidableEq

/-- The clause list built by `build_search_prompt` (trend_analyst.py 48-58):
each present (non-empty) field appends one labelled clause, in source order. -/
def queryParts (p : Profile) : List String :=
  (if p.genres.isEmpty then [] else ["genres: " ++ String.intercalate ", " p.genres]) ++
  (if p.tone.isEmpty then [] else ["tone: " ++ String.intercalate ", " p.tone]) ++
  (if p.decade.isEmpty then [] else ["from the " ++ String.intercalate ", " p.decade]) ++
  (if p.people.isEmpty then [] else ["involving " ++ String.intercalate ", " p.people]) ++
  (if p.other_preferences.isEmpty then [] else
    ["themes: " ++ String.intercalate ", " p.other_preferences])

/-- `build_search_prompt` (trend_analyst.py 41-60).  `none` is the
`json.JSONDecodeError` branch; `some p` is a parsed well-formed profile. -/
def build_search_prompt : Option Profile → String
  | none => "Movies similar to the user\x27s tastes"
  | some p => "Recommend movies that match " ++ String.intercalate ", " (queryParts p)

/-- Renders one clause of the query, as the spec (§4.3/§8) describes them:
`none` when the field is empty or absent, otherwise the labelled clause. -/
def specClause (label : String) (field : List String) : Option String :=
  if field.isEmpty then none else some (label ++ String.intercalate ", " field)

/-- The spec-side clause list (§4.3/§8): the five labelled clauses in the fixed
order genres, tone, decade, people, other_preferences, empty fields omitted. -/
def specOrderedClauses (p : Profile) : List String :=
  [specClause "genres: " p.genres,
   specClause "tone: " p.tone,
   specClause "from the " p.decade,
   specClause "involving " p.people,
   specClause "themes: " p.other_preferences].filterMap id

/-- `compute_weighted_rating` (build_master_dataset.py 67-69):
IMDb-style weighted rating, `(v/(v+m))*R + (m/(v+m))*C` when `v+m > 0`,
else `R`. -/
def compute_weighted_rating {K : Type} [LinearOrderedField K]
    [DecidableRel (fun a b : K => a < b)] (v R C m : K) : K :=
  if 0 < v + m then (v / (v + m)) * R + (m / (v + m)) * C else R

/-- A Python literal value, restricted to the fragment that appears in the
genre/keyword cells: integers, strings, lists and dicts. -/
inductive PyLit where
  | int : Int → PyLit
  | str : String → PyLit
  | list : List PyLit → PyLit
  | dict : List (PyLit × PyLit) → PyLit

/-- Whitespace predicate used by the literal parser. -/
def isWsChar (c : Char) : Bool :=
  c == ' ' || c == '\t' || c == '\n' || c == '\r'

/-- Skips leading whitespace. -/
def skipWs (cs : List Char) : List Char :=
  cs.dropWhile isWsChar

/-- Reads a quoted string literal body (no escape sequences) terminated by the
quote character `q`; returns the contents and the remaining input. -/
def readStringLit (q : Char) (cs : List Char) : Option (String × List Char) :=
  let content := cs.takeWhile (fun c => !(c == q || c == '\x5c'))
  match cs.drop content.length with
  | c :: rest => if c == q then some (⟨content⟩, rest) else none
  | [] => none

/-- Numeric value of a digit list. -/
def digitsVal (ds : List Char) : Nat :=
  ds.foldl (fun n c => 10 * n + (c.toNat - 48)) 0

/-- Reads an optionally negated decimal integer literal. -/
def readIntLit (cs : List Char) : Option (Int × List Char) :=
  match cs with
  | '-' :: rest =>
    let ds := rest.takeWhile Char.isDigit
    if ds.isEmpty then none else some (-(digitsVal ds : Int), rest.drop ds.length)
  | _ =>
    let ds := cs.takeWhile Char.isDigit
    if ds.isEmpty then none else some ((digitsVal ds : Int), cs.drop ds.length)

mutual

/-- Fuel-indexed parser for one Python literal value; models
`ast.literal_eval` on the restricted fragment. -/
def parseVal : Nat → List Char → Option (PyLit × List Char)
  | 0, _ => none
  | fuel + 1, cs =>
    match skipWs cs with
    | [] => none
    | c :: rest =>
      if c == '\x27' then (readStringLit '\x27' rest).map (fun sr => (PyLit.str sr.1, sr.2))
      else if c == '\x22' then (readStringLit '\x22' rest).map (fun sr => (PyLit.str sr.1, sr.2))
      else if c == '[' then
        match skipWs rest with
        | ']' :: r2 => some (PyLit.list [], r2)
        | _ => (parseListElems fuel rest).map (fun lr => (PyLit.list lr.1, lr.2))
      else if c == '\x7b' then
        match skipWs rest with
        | c2 :: r2 =>
          if c2 == '\x7d' then some (PyLit.dict [], r2)
          else (parseDictElems fuel rest).map (fun lr => (PyLit.dict lr.1, lr.2))
        | [] => none
      else
        match readIntLit (c :: rest) with
        | some nr => some (PyLit.int nr.1, nr.2)
        | none => none

/-- Parses the comma-separated elements of a non-empty list literal, up to and
including the closing bracket. -/
def parseListElems : Nat → List Char → Option (List PyLit × List Char)
  | 0, _ => none
  | fuel + 1, cs =>
    match parseVal fuel cs with
    | none => none
    | some vr =>
      match skipWs vr.2 with
      | ',' :: r2 => (parseListElems fuel r2).map (fun lr => (vr.1 :: lr.1, lr.2))
      | ']' :: r2 => some ([vr.1], r2)
      | _ => none

/-- Parses the comma-separated `key: value` entries of a non-empty dict
literal, up to and including the closing brace. -/
def parseDictElems : Nat → List Char → Option (List (PyLit × PyLit) × List Char)
  | 0, _ => none
  | fuel + 1, cs =>
    match parseVal fuel cs with
    | none => none
    | some kr =>
      match skipWs kr.2 with
      | ':' :: r2 =>
        match parseVal fuel r2 with
        | none => none
        | some vr =>
          match skipWs vr.2 with
          | ',' :: r4 => (parseDictElems fuel r4).map (fun lr => ((kr.1, vr.1) :: lr.1, lr.2))
          | c :: r4 => if c == '\x7d' then some ([(kr.1, vr.1)], r4) else none
          | [] => none
      | _ => none

end

/-- Models `ast.literal_eval` on the restricted literal fragment: `none`
stands for the evaluation raising (caught by the callers below). -/
def literalEval (s : String) : Option PyLit :=
  match parseVal (2 * s.length + 2) s.data with
  | some vr => if (skipWs vr.2).isEmpty then some vr.1 else none
  | none => none

/-- Python dict lookup `g[key]` for string key `key` guarded by `key in g`:
a later duplicate key overwrites an earlier one. -/
def dictGet (kvs : List (PyLit × PyLit)) (key : String) : Option PyLit :=
  kvs.foldl
    (fun acc kv =>
      match kv with
      | (PyLit.str k, v) => if k = key then some v else acc
      | _ => acc)
    none

/-- Python `str.startswith`: the pattern is a prefix of the string. -/
def startsWithStr (s pre : String) : Bool :=
  pre.data.isPrefixOf s.data

/-- Python `str.endswith`: the pattern is a suffix of the string. -/
def endsWithStr (s suf : String) : Bool :=
  suf.data.reverse.isPrefixOf s.data.reverse

/-- `parse_genres` (build_master_dataset.py 13-31): strips one level of outer
string-encoding when present, evaluates the inner literal list, and extracts
the `name` field of each dict entry; any failure yields `[]`.  The `pd.isna`
branch concerns non-string cells and is outside this `String`-typed model. -/
def parse_genres (s : String) : List PyLit :=
  if s = "[]" ∨ s = "" then []
  else
    let step1 : Option String :=
      if startsWithStr s "\x22[" && endsWithStr s "]\x22" then
        match literalEval s with
        | some (PyLit.str inner) => some inner
        | _ => none
      else some s
    match step1 with
    | none => []
    | some s2 =>
      match literalEval s2 with
      | some (PyLit.list l) =>
        l.filterMap (fun g =>
          match g with
          | PyLit.dict kvs => dictGet kvs "name"
          | _ => none)
      | some _ => []
      | none => []

/-- `parse_keywords` (build_master_dataset.py 34-44): like `parse_genres`
but without the double-encoding strip. -/
def parse_keywords (s : String) : List PyLit :=
  if s = "[]" ∨ s = "" then []
  else
    match literalEval s with
    | some (PyLit.list l) =>
      l.filterMap (fun g =>
        match g with
        | PyLit.dict kvs => dictGet kvs "name"
        | _ => none)
    | some _ => []
    | none => []

/-- Python round-half-to-even of a rational to the nearest integer, the tie
rule of `round` on floats. -/
def roundHalfEven (q : ℚ) : ℤ :=
  if q - ⌊q⌋ < 1 / 2 then ⌊q⌋
  else if 1 / 2 < q - ⌊q⌋ then ⌊q⌋ + 1
  else if Even ⌊q⌋ then ⌊q⌋ else ⌊q⌋ + 1

/-- Python `round(x, n)`: round half to even at the `n`-th decimal digit. -/
def pyRound (q : ℚ) (n : Nat) : ℚ :=
  (roundHalfEven (q * 10 ^ n) : ℚ) / 10 ^ n

/-- The metadata of one FAISS document (build_master_dataset.py 145-152):
each field is optional because `metadata.get` tolerates absence. -/
structure Doc where
  title : Option String
  year : Option Int
  genres : Option (List String)
  director : Option String
  rating : Option ℚ
deriving DecidableEq

/-- One candidate dict of the `recommendations` list
(trend_analyst.py 77-84). -/
structure Candidate where
  title : String
  year : Option Int
  genres : Option (List String)
  director : Option String
  rating : ℚ
  score : ℚ
deriving DecidableEq

/-- `doc.metadata.get("title", "Unknown")` for a search result pair
(trend_analyst.py 74). -/
def titleOf (r : Doc × ℚ) : String :=
  r.1.title.getD "Unknown"

/-- Builds the candidate dict appended for a kept search result
(trend_analyst.py 77-84). -/
def mkCandidate (r : Doc × ℚ) : Candidate :=
  { title := titleOf r
    year := r.1.year
    genres := r.1.genres
    director := r.1.director
    rating := pyRound (r.1.rating.getD 0) 2
    score := pyRound r.2 3 }

/-- The dedup-by-title loop of `analyze_trends` (trend_analyst.py 71-84):
`seen` is the `seen_titles` set accumulated so far. -/
def dedupByTitle : List (Doc × ℚ) → List String → List Candidate
  | [], _ => []
  | r :: rest, seen =>
    if titleOf r ∈ seen then dedupByTitle rest seen
    else mkCandidate r :: dedupByTitle rest (titleOf r :: seen)

/-- `analyze_trends` (trend_analyst.py 64-90).  The module-level FAISS
vectorstore is abstracted as the `search` parameter; an `Except.error`
from the index propagates unchanged, since the source wraps the
`similarity_search_with_score` call in no try/except and performs no
validation of `k`. -/
def analyze_trends (search : String → Int → Except String (List (Doc × ℚ)))
    (profile : Option Profile) (k : Int) : Except String (List Candidate) :=
  match search (build_search_prompt profile) k with
  | Except.error e => Except.error e
  | Except.ok results => Except.ok (dedupByTitle results [])

lemma roundHalfEven_le (q : ℚ) : roundHalfEven q ≤ ⌊q⌋ + 1 := by
  unfold roundHalfEven; split_ifs <;> omega

lemma le_roundHalfEven (q : ℚ) : ⌊q⌋ ≤ roundHalfEven q := by
  unfold roundHalfEven; split_ifs <;> omega

lemma roundHalfEven_mono {a b : ℚ} (h : a ≤ b) : roundHalfEven a ≤ roundHalfEven b := by
  have hf : ⌊a⌋ ≤ ⌊b⌋ := Int.floor_le_floor h
  rcases eq_or_lt_of_le hf with heq | hlt
  · have hab : a - ⌊a⌋ ≤ b - ⌊b⌋ := by
      rw [← heq]; linarith
    unfold roundHalfEven
    rw [← heq]
    split_ifs <;> first | omega | linarith
  · have h1 := roundHalfEven_le a
    have h2 := le_roundHalfEven b
    omega

lemma pyRound_mono {a b : ℚ} (n : Nat) (h : a ≤ b) : pyRound a n ≤ pyRound b n := by
  unfold pyRound
  have hpow : (0 : ℚ) < 10 ^ n := by positivity
  have hr : roundHalfEven (a * 10 ^ n) ≤ roundHalfEven (b * 10 ^ n) :=
    roundHalfEven_mono (by exact mul_le_mul_of_nonneg_right h (le_of_lt hpow))
  exact div_le_div_of_nonneg_right (by exact_mod_cast hr) hpow.le

lemma mkCandidate_title (r : Doc × ℚ) : (mkCandidate r).title = titleOf r := rfl

lemma dedupByTitle_sublist :
    ∀ (xs : List (Doc × ℚ)) (seen : List String),
      List.Sublist (dedupByTitle xs seen) (xs.map mkCandidate) := by
  intro xs
  induction xs with
  | nil => intro seen; simp [dedupByTitle]
  | cons r rest ih =>
    intro seen
    simp only [dedupByTitle, List.map_cons]
    split_ifs with h
    · exact (ih seen).trans (List.sublist_cons_self _ _)
    · exact (ih _).cons₂ _

lemma dedupByTitle_length_le (xs : List (Doc × ℚ)) (seen : List String) :
    (dedupByTitle xs seen).length ≤ xs.length := by
  have := (dedupByTitle_sublist xs seen).length_le
  simpa using this

lemma dedupByTitle_title_not_seen :
    ∀ (xs : List (Doc × ℚ)) (seen : List String),
      ∀ c ∈ dedupByTitle xs seen, c.title ∉ seen := by
  intro xs
  induction xs with
  | nil => intro seen c hc; simp [dedupByTitle] at hc
  | cons r rest ih =>
    intro seen c hc
    by_cases h : titleOf r ∈ seen
    · rw [dedupByTitle, if_pos h] at hc
      exact ih seen c hc
    · rw [dedupByTitle, if_neg h] at hc
      rcases List.mem_cons.mp hc with hc | hc
      · subst hc; rw [mkCandidate_title]; exact h
      · have := ih _ c hc
        intro hmem
        exact this (List.mem_cons_of_mem _ hmem)

lemma dedupByTitle_filter_mem_seen (xs : List (Doc × ℚ)) (seen : List String)
    (t : String) (ht : t ∈ seen) :
    (dedupByTitle xs seen).filter (fun c => c.title == t) = [] := by
  rw [List.filter_eq_nil_iff]
  intro c hc
  have := dedupByTitle_title_not_seen xs seen c hc
  simp only [beq_iff_eq]
  intro hct
  exact this (hct ▸ ht)

lemma dedupByTitle_filter_not_seen :
    ∀ (xs : List (Doc × ℚ)) (seen : List String) (t : String), t ∉ seen →
      (dedupByTitle xs seen).filter (fun c => c.title == t) =
        (match xs.find? (fun r => titleOf r == t) with
         | some r => [mkCandidate r]
         | none => []) := by
  intro xs
  induction xs with
  | nil => intro seen t ht; simp [dedupByTitle]
  | cons r rest ih =>
    intro seen t ht
    by_cases h : titleOf r ∈ seen
    · have hrt : (titleOf r == t) = false := by
        simp only [beq_eq_false_iff_ne, ne_eq]
        intro he; exact ht (he ▸ h)
      rw [dedupByTitle, if_pos h, List.find?_cons_of_neg _ (by simp [hrt])]
      exact ih seen t ht
    · rw [dedupByTitle, if_neg h]
      by_cases hrt : titleOf r = t
      · rw [List.find?_cons_of_pos _ (by simp [hrt])]
        rw [List.filter_cons_of_pos (by simp [mkCandidate_title, hrt])]
        rw [dedupByTitle_filter_mem_seen _ _ _ (hrt ▸ List.mem_cons_self _ _)]
      · rw [List.find?_cons_of_neg _ (by simp [hrt])]
        rw [List.filter_cons_of_neg (by simp [mkCandidate_title, hrt])]
        exact ih _ t (by
          intro hmem
          rcases List.mem_cons.mp hmem with he | he
          · exact hrt he.symm
          · exact ht he)

lemma findIdx_le_of_getElem? {α : Type} (p : α → Bool) :
    ∀ (l : List α) (i : Nat) (a : α), l[i]? = some a → p a = true →
      l.findIdx p ≤ i := by
  intro l
  induction l with
  | nil => intro i a h; simp at h
  | cons x xs ih =>
    intro i a h hp
    cases i with
    | zero =>
      simp only [List.getElem?_cons_zero, Option.some.injEq] at h
      subst h
      simp [List.findIdx_cons, hp]
    | succ n =>
      simp only [List.getElem?_cons_succ] at h
      rw [List.findIdx_cons]
      cases hx : p x
      · simp only [cond_false]
        exact Nat.succ_le_succ (ih n a h hp)
      · simp

lemma find?_isSome_of_getElem? {α : Type} (p : α → Bool) (l : List α) (i : Nat)
    (a : α) (h : l[i]? = some a) (hp : p a = true) :
    ∃ r, l.find? p = some r := by
  have hmem : a ∈ l := by
    have hi : i < l.length := by
      by_contra hge
      rw [List.getElem?_eq_none (by omega)] at h
      exact Option.noConfusion h
    rcases List.getElem?_eq_some.mp h with ⟨h1, h2⟩
    exact h2 ▸ List.getElem_mem h1
  have : (l.find? p).isSome := List.find?_isSome.mpr ⟨a, hmem, hp⟩
  rcases Option.isSome_iff_exists.mp this with ⟨r, hr⟩
  exact ⟨r, hr⟩

lemma dedupByTitle_titles_nodup :
    ∀ (xs : List (Doc × ℚ)) (seen : List String),
      ((dedupByTitle xs seen).map Candidate.title).Nodup := by
  intro xs
  induction xs with
  | nil => intro seen; simp [dedupByTitle]
  | cons r rest ih =>
    intro seen
    by_cases h : titleOf r ∈ seen
    · rw [dedupByTitle, if_pos h]
      exact ih seen
    · rw [dedupByTitle, if_neg h]
      simp only [List.map_cons, List.nodup_cons]
      refine ⟨?_, ih _⟩
      intro hmem
      rcases List.mem_map.mp hmem with ⟨c, hc, hct⟩
      have := dedupByTitle_title_not_seen rest _ c hc
      rw [hct, mkCandidate_title] at this
      exact this (List.mem_cons_self _ _)


/-- C1 counterexample: the fallback returned on malformed input is the
capitalised string "Movies similar to the user\x27s tastes", not the
lower-case string the claim quotes, so the claim as stated is false. -/
theorem build_search_prompt_fallback_counterexample :
    build_search_prompt none ≠ "movies similar to the user\x27s tastes" := by
  decide

/-- C1 (amended): for every malformed/non-JSON profile input,
`build_search_prompt` is total (the decode-error branch is caught, so it
never raises) and returns the fixed fallback string
"Movies similar to the user\x27s tastes" (with a capital M). -/
theorem build_search_prompt_fallback :
    build_search_prompt none = "Movies similar to the user\x27s tastes" := rfl

/-- C2 counterexample: `analyze_trends` performs no validation of `k`.  With
an index search that accepts every `k`, the call at `k = -1` returns an
ordinary (non-error) empty result, so `analyze_trends` does not reject
`k` less than or equal to 0 as invalid input. -/
theorem analyze_trends_no_reject_counterexample :
    analyze_trends (fun _ _ => Except.ok []) none (-1) = Except.ok [] := rfl

/-- C2 (amended): `analyze_trends` performs no validation of `k`: any `k`,
including `k` less than or equal to 0, is forwarded unchanged to the index
search, and the result (or error) of the search is what `analyze_trends`
reflects; in particular an empty index or zero search matches yields an
empty candidate sequence rather than an error. -/
theorem analyze_trends_forwards_k (search : String → Int → Except String (List (Doc × ℚ)))
    (p : Option Profile) (k : Int) :
    analyze_trends search p k =
      Except.map (fun results => dedupByTitle results [])
        (search (build_search_prompt p) k) ∧
    (search (build_search_prompt p) k = Except.ok [] →
      analyze_trends search p k = Except.ok []) := by
  constructor
  · unfold analyze_trends
    cases search (build_search_prompt p) k <;> rfl
  · intro h
    unfold analyze_trends
    rw [h]
    rfl

/-- C2 witness: the amended statement applied at a concrete search function,
profile and non-positive `k`, with its hypothesis discharged. -/
theorem analyze_trends_forwards_k_witness :
    analyze_trends (fun _ _ => Except.ok [(⟨some "A", none, none, none, none⟩, 0)])
        (some ⟨[], [], [], [], []⟩) 0 =
      Except.map (fun results => dedupByTitle results [])
        ((fun _ _ => Except.ok [(⟨some "A", none, none, none, none⟩, 0)])
          (build_search_prompt (some ⟨[], [], [], [], []⟩)) 0) ∧
    analyze_trends (fun _ _ => Except.ok ([] : List (Doc × ℚ))) none (-2) =
      Except.ok [] :=
  ⟨(analyze_trends_forwards_k _ (some ⟨[], [], [], [], []⟩) 0).1,
   (analyze_trends_forwards_k (fun _ _ => Except.ok []) none (-2)).2 rfl⟩

/-- C7: for every well-formed profile, the rendered query consists of the
fixed lead-in followed by exactly the clauses of the present fields, joined
by ", ", in the fixed spec order genres, tone, decade, people,
other_preferences; empty or absent fields contribute no clause. -/
theorem build_search_prompt_clause_order (p : Profile) :
    build_search_prompt (some p) =
      "Recommend movies that match " ++
        String.intercalate ", " (specOrderedClauses p) := by
  simp only [build_search_prompt, queryParts, specOrderedClauses, specClause]
  split_ifs <;> rfl

/-- C8: on the end-to-end scenario profile (genres romance, comedy; tone
light-hearted; decade 2000s; no people; other preference feel-good),
`build_search_prompt` renders exactly the expected query string. -/
theorem build_search_prompt_scenario :
    build_search_prompt
        (some ⟨["romance", "comedy"], ["light-hearted"], ["2000s"], [], ["feel-good"]⟩) =
      "Recommend movies that match genres: romance, comedy, tone: light-hearted, from the 2000s, themes: feel-good" := by
  rfl

/-- C10: for every well-formed profile whose five fields are all absent or
empty, `build_search_prompt` returns the bare lead-in
"Recommend movies that match " (with its trailing space and no clauses),
which is not the malformed-input fallback string. -/
theorem build_search_prompt_empty_profile (p : Profile)
    (h1 : p.genres = []) (h2 : p.tone = []) (h3 : p.decade = [])
    (h4 : p.people = []) (h5 : p.other_preferences = []) :
    build_search_prompt (some p) = "Recommend movies that match " ∧
    build_search_prompt (some p) ≠ "Movies similar to the user\x27s tastes" := by
  cases p
  simp only at h1 h2 h3 h4 h5
  subst h1 h2 h3 h4 h5
  exact ⟨rfl, by decide⟩

/-- C10 witness: the empty-profile statement applied at the all-empty
profile. -/
theorem build_search_prompt_empty_profile_witness :
    build_search_prompt (some ⟨[], [], [], [], []⟩) = "Recommend movies that match " ∧
    build_search_prompt (some ⟨[], [], [], [], []⟩) ≠
      "Movies similar to the user\x27s tastes" :=
  build_search_prompt_empty_profile ⟨[], [], [], [], []⟩ rfl rfl rfl rfl rfl

/-- C3: for fixed `R > C` and threshold `m > 0`, the weighted rating is
strictly increasing in the vote count on `v ≥ 0`, equals the corpus mean `C`
at `v = 0`, and tends to the raw average `R` as `v → ∞`. -/
theorem compute_weighted_rating_monotone_limit (R C m : ℝ) (hm : 0 < m)
    (hRC : C < R) :
    (∀ v₁ v₂ : ℝ, 0 ≤ v₁ → v₁ < v₂ →
      compute_weighted_rating v₁ R C m < compute_weighted_rating v₂ R C m) ∧
    compute_weighted_rating (0 : ℝ) R C m = C ∧
    Filter.Tendsto (fun v : ℝ => compute_weighted_rating v R C m)
      Filter.atTop (nhds R) := by
  refine ⟨?_, ?_, ?_⟩
  · intro v₁ v₂ h1 h12
    have hd1 : (0 : ℝ) < v₁ + m := by linarith
    have hd2 : (0 : ℝ) < v₂ + m := by linarith
    rw [compute_weighted_rating, compute_weighted_rating, if_pos hd1, if_pos hd2]
    have e1 : v₁ / (v₁ + m) * R + m / (v₁ + m) * C = (v₁ * R + m * C) / (v₁ + m) := by
      field_simp
    have e2 : v₂ / (v₂ + m) * R + m / (v₂ + m) * C = (v₂ * R + m * C) / (v₂ + m) := by
      field_simp
    rw [e1, e2, div_lt_div_iff₀ hd1 hd2]
    nlinarith [mul_pos hm (sub_pos.mpr h12), sub_pos.mpr hRC,
      mul_pos (mul_pos hm (sub_pos.mpr h12)) (sub_pos.mpr hRC)]
  · rw [compute_weighted_rating, if_pos (by linarith : (0 : ℝ) < 0 + m)]
    field_simp
  · have h1 : Filter.Tendsto (fun v : ℝ => v + m) Filter.atTop Filter.atTop :=
      Filter.tendsto_atTop_add_const_right _ m Filter.tendsto_id
    have h2 : Filter.Tendsto (fun v : ℝ => (v + m)⁻¹) Filter.atTop (nhds 0) :=
      tendsto_inv_atTop_zero.comp h1
    have h3 : Filter.Tendsto (fun v : ℝ => (R - C) * (m * (v + m)⁻¹))
        Filter.atTop (nhds 0) := by
      have := (h2.const_mul m).const_mul (R - C)
      simpa using this
    have h4 : Filter.Tendsto (fun v : ℝ => R - (R - C) * (m * (v + m)⁻¹))
        Filter.atTop (nhds R) := by
      have := h3.const_sub R
      simpa using this
    refine h4.congr' ?_
    filter_upwards [Filter.eventually_gt_atTop (0 : ℝ)] with v hv
    have hd : (0 : ℝ) < v + m := by linarith
    rw [compute_weighted_rating, if_pos hd]
    field_simp
    ring

/-- C3 witness: the theorem applied at the concrete values `R = 2`, `C = 0`,
`m = 1`, with both hypotheses discharged. -/
theorem compute_weighted_rating_monotone_limit_witness :
    ((0 : ℝ) < 1 ∧ (0 : ℝ) < 2) ∧
    ((∀ v₁ v₂ : ℝ, 0 ≤ v₁ → v₁ < v₂ →
      compute_weighted_rating v₁ 2 0 1 < compute_weighted_rating v₂ 2 0 1) ∧
    compute_weighted_rating (0 : ℝ) 2 0 1 = 0 ∧
    Filter.Tendsto (fun v : ℝ => compute_weighted_rating v 2 0 1)
      Filter.atTop (nhds 2)) :=
  ⟨⟨by norm_num, by norm_num⟩,
   compute_weighted_rating_monotone_limit 2 0 1 (by norm_num) (by norm_num)⟩

/-- C4: whenever the index search returns at most `k` results, the candidate
list returned by `analyze_trends` has at most `k` entries and no two of its
candidates share a title. -/
theorem analyze_trends_length_nodup
    (search : String → Int → Except String (List (Doc × ℚ)))
    (p : Option Profile) (k : Int) (results : List (Doc × ℚ))
    (h : search (build_search_prompt p) k = Except.ok results)
    (hlen : results.length ≤ k.toNat) :
    ∃ cands, analyze_trends search p k = Except.ok cands ∧
      cands.length ≤ k.toNat ∧ (cands.map Candidate.title).Nodup := by
  refine ⟨dedupByTitle results [], ?_, ?_, ?_⟩
  · unfold analyze_trends
    rw [h]
  · exact le_trans (dedupByTitle_length_le results []) hlen
  · exact dedupByTitle_titles_nodup results []

/-- C4 witness: the theorem applied to a concrete search returning two
results with a duplicated title at `k = 5`. -/
theorem analyze_trends_length_nodup_witness :
    ∃ cands,
      analyze_trends
          (fun _ _ => Except.ok
            [(⟨some "A", none, none, none, none⟩, 0),
             (⟨some "A", none, none, none, none⟩, 1)])
          (some ⟨["romance"], [], [], [], []⟩) 5 = Except.ok cands ∧
      cands.length ≤ (5 : Int).toNat ∧ (cands.map Candidate.title).Nodup :=
  analyze_trends_length_nodup _ (some ⟨["romance"], [], [], [], []⟩) 5
    [(⟨some "A", none, none, none, none⟩, 0),
     (⟨some "A", none, none, none, none⟩, 1)]
    rfl (by decide)

/-- C5: if the index search returns its (document, distance) pairs in
ascending distance order, the candidate list returned by `analyze_trends`
is sorted by non-decreasing (rounded) score. -/
theorem analyze_trends_sorted
    (search : String → Int → Except String (List (Doc × ℚ)))
    (p : Option Profile) (k : Int) (results : List (Doc × ℚ))
    (h : search (build_search_prompt p) k = Except.ok results)
    (hsorted : results.Pairwise (fun a b => a.2 ≤ b.2)) :
    ∃ cands, analyze_trends search p k = Except.ok cands ∧
      cands.Pairwise (fun a b => a.score ≤ b.score) := by
  refine ⟨dedupByTitle results [], ?_, ?_⟩
  · unfold analyze_trends
    rw [h]
  · have hmap : (results.map mkCandidate).Pairwise
        (fun a b => a.score ≤ b.score) := by
      rw [List.pairwise_map]
      exact hsorted.imp (fun hab => pyRound_mono 3 hab)
    exact List.Pairwise.sublist (dedupByTitle_sublist results []) hmap

/-- C5 witness: the theorem applied to a concrete ascending-score result
list. -/
theorem analyze_trends_sorted_witness :
    ∃ cands,
      analyze_trends
          (fun _ _ => Except.ok
            [(⟨some "A", none, none, none, none⟩, 0),
             (⟨some "B", none, none, none, none⟩, 1),
             (⟨some "A", none, none, none, none⟩, 2)])
          none 3 = Except.ok cands ∧
      cands.Pairwise (fun a b => a.score ≤ b.score) :=
  analyze_trends_sorted _ none 3
    [(⟨some "A", none, none, none, none⟩, 0),
     (⟨some "B", none, none, none, none⟩, 1),
     (⟨some "A", none, none, none, none⟩, 2)]
    rfl (by decide)

/-- C6: if the raw search results contain the same title at two different
positions `i < j`, then the candidates carrying that title in the output of
`analyze_trends` are exactly one, built from the first result carrying the
title, which occurs at a position no later than `i`. -/
theorem analyze_trends_dup_title_earlier
    (search : String → Int → Except String (List (Doc × ℚ)))
    (p : Option Profile) (k : Int) (results : List (Doc × ℚ))
    (h : search (build_search_prompt p) k = Except.ok results)
    (i j : Nat) (ri rj : Doc × ℚ) (hij : i < j)
    (hi : results[i]? = some ri) (hj : results[j]? = some rj)
    (ht : titleOf ri = titleOf rj) :
    ∃ r cands, analyze_trends search p k = Except.ok cands ∧
      results.find? (fun x => titleOf x == titleOf ri) = some r ∧
      results.findIdx (fun x => titleOf x == titleOf ri) ≤ i ∧
      cands.filter (fun c => c.title == titleOf ri) = [mkCandidate r] := by
  have hp : (titleOf ri == titleOf ri) = true := by simp
  rcases find?_isSome_of_getElem? (fun x => titleOf x == titleOf ri)
    results i ri hi hp with ⟨r, hr⟩
  refine ⟨r, dedupByTitle results [], ?_, hr, ?_, ?_⟩
  · unfold analyze_trends
    rw [h]
  · exact findIdx_le_of_getElem? _ results i ri hi hp
  · rw [dedupByTitle_filter_not_seen results [] (titleOf ri) (by simp), hr]

/-- C6 witness: the theorem applied to a concrete result list in which the
title "A" occurs at positions 0 and 2. -/
theorem analyze_trends_dup_title_earlier_witness :
    ∃ r cands,
      analyze_trends
          (fun _ _ => Except.ok
            [(⟨some "A", none, none, none, some 1⟩, 0),
             (⟨some "B", none, none, none, none⟩, 1),
             (⟨some "A", none, none, none, some 2⟩, 2)])
          none 3 = Except.ok cands ∧
      ([(⟨some "A", none, none, none, some 1⟩, 0),
        (⟨some "B", none, none, none, none⟩, 1),
        (⟨some "A", none, none, none, some 2⟩, (2 : ℚ))].find?
          (fun x => titleOf x == titleOf (⟨some "A", none, none, none, some 1⟩, (0 : ℚ)))) = some r ∧
      ([(⟨some "A", none, none, none, some 1⟩, 0),
        (⟨some "B", none, none, none, none⟩, 1),
        (⟨some "A", none, none, none, some 2⟩, (2 : ℚ))].findIdx
          (fun x => titleOf x == titleOf (⟨some "A", none, none, none, some 1⟩, (0 : ℚ)))) ≤ 0 ∧
      cands.filter
          (fun c => c.title == titleOf (⟨some "A", none, none, none, some 1⟩, (0 : ℚ))) =
        [mkCandidate r] :=
  analyze_trends_dup_title_earlier _ none 3
    [(⟨some "A", none, none, none, some 1⟩, 0),
     (⟨some "B", none, none, none, none⟩, 1),
     (⟨some "A", none, none, none, some 2⟩, 2)]
    rfl 0 2 (⟨some "A", none, none, none, some 1⟩, 0)
    (⟨some "A", none, none, none, some 2⟩, 2)
    (by decide) rfl rfl rfl

lemma parse_genres_of_evalFail {s : String} (h : literalEval s = none) :
    parse_genres s = [] := by
  unfold parse_genres
  split_ifs with h0 h1
  · rfl
  · simp only [h]
  · simp only [h]

lemma parse_keywords_of_evalFail {s : String} (h : literalEval s = none) :
    parse_keywords s = [] := by
  unfold parse_keywords
  split_ifs with h0
  · rfl
  · simp only [h]

/-- C9: genre/keyword parsing is total and tolerant: on every input whose
literal evaluation fails, both parsers return the empty list instead of
raising; the encoded genre list "[\x7b\x27id\x27: 28, \x27name\x27: \x27Action\x27\x7d]"
yields the single name Action; "" and "[]" yield the empty list; and one
level of outer string-encoding (a double-encoded value) is detected and
stripped before decoding, yielding the same single name. -/
theorem parse_genres_keywords_tolerant (s : String) (h : literalEval s = none) :
    parse_genres s = [] ∧ parse_keywords s = [] ∧
    parse_genres "[\x7b\x27id\x27: 28, \x27name\x27: \x27Action\x27\x7d]" =
      [PyLit.str "Action"] ∧
    parse_genres "" = [] ∧ parse_genres "[]" = [] ∧
    parse_keywords "" = [] ∧ parse_keywords "[]" = [] ∧
    parse_genres "\x22[\x7b\x27id\x27: 28, \x27name\x27: \x27Action\x27\x7d]\x22" =
      [PyLit.str "Action"] :=
  ⟨parse_genres_of_evalFail h, parse_keywords_of_evalFail h,
   rfl, rfl, rfl, rfl, rfl, rfl⟩

/-- C9 witness: the theorem applied at the concrete malformed input
"not a literal", whose literal evaluation fails. -/
theorem parse_genres_keywords_tolerant_witness :
    literalEval "not a literal" = none ∧
    (parse_genres "not a literal" = [] ∧ parse_keywords "not a literal" = [] ∧
     parse_genres "[\x7b\x27id\x27: 28, \x27name\x27: \x27Action\x27\x7d]" =
       [PyLit.str "Action"] ∧
     parse_genres "" = [] ∧ parse_genres "[]" = [] ∧
     parse_keywords "" = [] ∧ parse_keywords "[]" = [] ∧
     parse_genres "\x22[\x7b\x27id\x27: 28, \x27name\x27: \x27Action\x27\x7d]\x22" =
       [PyLit.str "Action"]) :=
  ⟨rfl, parse_genres_keywords_tolerant "not a literal" rfl⟩
